import Mathlib

/-!
# Verification of the EAST training drivers

Shallow embedding of the two training-loop drivers of the repository
`level2_dataannotation_cv-level2-cv-18`:

* Variant A: `src/develop/T4148_train_adamW.py` (loss-based early stopping)
* Variant B: `src/develop/T4148_train_loader.py` (F1-based early stopping with
  optional validation)

The external collaborators (`model`, `dataset`, `east_dataset`, `detect`,
`deteval`, the filesystem, `wandb`) are abstracted: per-epoch losses and
per-validation F1 scores are inputs (`ℕ → ℚ`), filesystem effects are recorded
as events in a per-epoch trace record, and OS calls are modelled with explicit
state plus fault injection.  Python `int` values that can be negative on the
command line (`early_stop`) are embedded as `ℤ`; loop indices and counters that
are provably non-negative are `ℕ`; real-valued scores are embedded as `ℚ`
(the claims only compare and copy them, never compute with them).
-/

namespace EastTrain

/-! ## Variant A (`T4148_train_adamW.py`): state and step -/

/-- Mutable driver state of Variant A (`T4148_train_adamW.py` lines 88-89):
`best_score` initialised to 9999, `early_stop_cnt` to 0. -/
structure StateA where
  best_score : ℚ
  early_stop_cnt : ℕ
deriving Repr, DecidableEq

/-- Initial state of Variant A (`early_stop_cnt=0`, `best_score = 9999`). -/
def initA : StateA := ⟨9999, 0⟩

/-- Lines 119-130 of `T4148_train_adamW.py`: if `best_score > epoch_loss`,
record the new best (and save `best_model.pth`, the returned `Bool`);
otherwise increment `early_stop_cnt`. -/
def updateBestA (s : StateA) (epoch_loss : ℚ) : StateA × Bool :=
  if s.best_score > epoch_loss then
    (⟨epoch_loss, s.early_stop_cnt⟩, true)
  else
    (⟨s.best_score, s.early_stop_cnt + 1⟩, false)

/-- Line 132 of `T4148_train_adamW.py`: `early_stop_cnt > early_stop`.
`early_stop` is a command-line `int`, so it is embedded as `ℤ`. -/
def breaksA (early_stop : ℤ) (s : StateA) : Bool :=
  (s.early_stop_cnt : ℤ) > early_stop

/-- Lines 137 (Variant A) / 191 (Variant B): the periodic-checkpoint
condition `(epoch + 1) % save_interval == 0`. -/
def periodicEpoch (save_interval : ℕ) (epoch : ℕ) : Bool :=
  (epoch + 1) % save_interval == 0

/-- One epoch of the Variant A trace: the state before and after the
best-score bookkeeping, whether `best_model.pth` was saved (`savedBest`,
lines 122-124), whether the timestamped periodic checkpoint was written and
`latest.pth` force-relinked (`savedPeriodic`, lines 137-146), and whether the
loop `break`-ed out on this epoch (`broke`, lines 132-134). -/
structure EpochRecA where
  epoch : ℕ
  loss : ℚ
  before : StateA
  after : StateA
  savedBest : Bool
  savedPeriodic : Bool
  broke : Bool
deriving Repr, DecidableEq

/-- The epoch loop of Variant A (`T4148_train_adamW.py` lines 91-146),
restricted to its checkpoint/early-stop bookkeeping.  `losses k` is the
accumulated `epoch_loss` of epoch `k` (produced by the external model, out of
scope).  `fuel` is the number of remaining epochs (`range(max_epoch)`).
Note the source order: the best-score update (119-130) precedes the early-stop
`break` (132-134), which precedes the periodic save (137-146); hence on a
breaking epoch `savedPeriodic` is `false`. -/
def runA (early_stop : ℤ) (save_interval : ℕ) (losses : ℕ → ℚ) :
    ℕ → ℕ → StateA → List EpochRecA
  | _, 0, _ => []
  | epoch, fuel + 1, s =>
    let l := losses epoch
    let su := updateBestA s l
    if breaksA early_stop su.1 then
      [⟨epoch, l, s, su.1, su.2, false, true⟩]
    else
      ⟨epoch, l, s, su.1, su.2, periodicEpoch save_interval epoch, false⟩ ::
        runA early_stop save_interval losses (epoch + 1) fuel su.1

/-- A whole Variant A run: epochs `0, 1, ...` up to `max_epoch`, from the
initial state. -/
def traceA (early_stop : ℤ) (save_interval : ℕ) (losses : ℕ → ℚ)
    (max_epoch : ℕ) : List EpochRecA :=
  runA early_stop save_interval losses 0 max_epoch initA

/-! ## Variant B (`T4148_train_loader.py`): state and step -/

/-- Mutable driver state of Variant B (`T4148_train_loader.py` lines 117-118):
`stop_cnt` initialised to 0, `best_score` to 0. -/
structure StateB where
  best_score : ℚ
  stop_cnt : ℕ
deriving Repr, DecidableEq

/-- Initial state of Variant B (`stop_cnt = 0`, `best_score = 0`). -/
def initB : StateB := ⟨0, 0⟩

/-- Line 154 of `T4148_train_loader.py`: the validation branch guard
`use_val and (epoch + 1) % val_interval == 0`. -/
def valEpoch (use_val : Bool) (val_interval : ℕ) (epoch : ℕ) : Bool :=
  use_val && ((epoch + 1) % val_interval == 0)

/-- Lines 179-189 of `T4148_train_loader.py`: if `best_score < f1_score`,
record the new best, save the run-named best checkpoint, force-relink
`best_model.pth` (the returned `Bool`) and reset `stop_cnt` to 0; otherwise
increment `stop_cnt`. -/
def updateBestB (s : StateB) (f1_score : ℚ) : StateB × Bool :=
  if s.best_score < f1_score then
    (⟨f1_score, 0⟩, true)
  else
    (⟨s.best_score, s.stop_cnt + 1⟩, false)

/-- Line 202 of `T4148_train_loader.py`: `stop_cnt > early_stop`, checked on
every epoch (the check sits at epoch level, outside the validation branch). -/
def breaksB (early_stop : ℤ) (s : StateB) : Bool :=
  (s.stop_cnt : ℤ) > early_stop

/-- One epoch of the Variant B trace: `f1` is the validation F1 of the epoch
(consulted only when `ranVal` is true), `savedBest` is the best-checkpoint
save plus `best_model.pth` relink (lines 182-185), `savedPeriodic` the
timestamped checkpoint plus `latest.pth` relink (lines 191-199), and `broke`
the early-stop `break` (lines 202-204). -/
structure EpochRecB where
  epoch : ℕ
  f1 : ℚ
  before : StateB
  after : StateB
  ranVal : Bool
  savedBest : Bool
  savedPeriodic : Bool
  broke : Bool
deriving Repr, DecidableEq

/-- The whole validation branch of one Variant B epoch
(`T4148_train_loader.py` lines 154-189): when the guard of line 154 holds,
run validation and the best-score bookkeeping of lines 179-189; otherwise
leave the state untouched (and save no best checkpoint). -/
def stepB (use_val : Bool) (val_interval : ℕ) (f1s : ℕ → ℚ) (epoch : ℕ)
    (s : StateB) : StateB × Bool :=
  if valEpoch use_val val_interval epoch then updateBestB s (f1s epoch)
  else (s, false)

/-- The epoch loop of Variant B (`T4148_train_loader.py` lines 119-204),
restricted to its validation/checkpoint/early-stop bookkeeping.  `f1s k` is
the F1 score the validation pass of epoch `k` would report (computed by the
external `detect`/`calc_deteval_metrics` collaborators, out of scope).
Source order: the validation branch (154-189) precedes the periodic save
(191-199), which precedes the early-stop check (202-204); hence the periodic
save does happen on a breaking epoch, and the break check runs on every
epoch, not only on validation epochs. -/
def runB (early_stop : ℤ) (save_interval : ℕ) (use_val : Bool)
    (val_interval : ℕ) (f1s : ℕ → ℚ) :
    ℕ → ℕ → StateB → List EpochRecB
  | _, 0, _ => []
  | epoch, fuel + 1, s =>
    let f1 := f1s epoch
    let rv := valEpoch use_val val_interval epoch
    let su := stepB use_val val_interval f1s epoch s
    let sp := periodicEpoch save_interval epoch
    if breaksB early_stop su.1 then
      [⟨epoch, f1, s, su.1, rv, su.2, sp, true⟩]
    else
      ⟨epoch, f1, s, su.1, rv, su.2, sp, false⟩ ::
        runB early_stop save_interval use_val val_interval f1s
          (epoch + 1) fuel su.1

/-- A whole Variant B run: epochs `0, 1, ...` up to `max_epoch`, from the
initial state. -/
def traceB (early_stop : ℤ) (save_interval : ℕ) (use_val : Bool)
    (val_interval : ℕ) (f1s : ℕ → ℚ) (max_epoch : ℕ) : List EpochRecB :=
  runB early_stop save_interval use_val val_interval f1s 0 max_epoch initB

/-! ## Configuration parsing (`parse_args` in both variants) -/

/-- The argument set of Variant A's `ArgumentParser`
(`T4148_train_adamW.py` lines 41-57), as left by `parser.parse_args()`:
strings stay strings, `type=int` arguments are `ℤ`, `type=float` is `ℚ`. -/
structure ArgsA where
  data_dir : String
  model_dir : String
  device : String
  num_workers : ℤ
  image_size : ℤ
  input_size : ℤ
  batch_size : ℤ
  learning_rate : ℚ
  max_epoch : ℤ
  save_interval : ℤ
  wandb_name : String
  seed : ℤ
  early_stop : ℤ
deriving Repr, DecidableEq

/-- The argument set of Variant B's `ArgumentParser`
(`T4148_train_loader.py` lines 57-75): Variant A's arguments plus
`use_val` (via `str2bool`) and `val_interval`. -/
structure ArgsB where
  data_dir : String
  model_dir : String
  device : String
  num_workers : ℤ
  image_size : ℤ
  input_size : ℤ
  batch_size : ℤ
  learning_rate : ℚ
  max_epoch : ℤ
  save_interval : ℤ
  wandb_name : String
  seed : ℤ
  use_val : Bool
  val_interval : ℤ
  early_stop : ℤ
deriving Repr, DecidableEq

/-- The validation step of Variant A's `parse_args`
(`T4148_train_adamW.py` lines 59-64): after `parser.parse_args()` has
produced `args`, raise `ValueError` when `input_size % 32 != 0`, else return
`args`. -/
def parse_argsA (args : ArgsA) : Except String ArgsA :=
  if args.input_size % 32 ≠ 0 then
    .error "input_size must be a multiple of 32"
  else
    .ok args

/-- The validation/downgrade steps of Variant B's `parse_args`
(`T4148_train_loader.py` lines 77-87).  `val_json_exists` abstracts
`osp.isfile(osp.join(args.data_dir, 'ufo/val.json'))`.  On success the
returned `Bool` records whether the warning of lines 83-84 was printed
(and `use_val` force-reset to `False`). -/
def parse_argsB (args : ArgsB) (val_json_exists : Bool) :
    Except String (ArgsB × Bool) :=
  if args.input_size % 32 ≠ 0 then
    .error "input_size must be a multiple of 32"
  else if args.use_val = true ∧ val_json_exists = false then
    .ok ({ args with use_val := false }, true)
  else
    .ok (args, false)

/-- The default argument values of Variant A
(`T4148_train_adamW.py` lines 41-57, with `SM_CHANNEL_TRAIN` and
`SM_MODEL_DIR` unset and CUDA available). -/
def defaultArgsA : ArgsA :=
  ⟨"../input/data/ICDAR17_Korean", "trained_models", "cuda", 4, 1024, 512,
   12, 1 / 1000, 200, 5, "Unnamed Test", 42, 201⟩

/-- The default argument values of Variant B
(`T4148_train_loader.py` lines 57-75, with `SM_CHANNEL_TRAIN` and
`SM_MODEL_DIR` unset and CUDA available). -/
def defaultArgsB : ArgsB :=
  ⟨"../input/data/ICDAR17_Korean", "trained_models", "cuda", 4, 1024, 512,
   12, 1 / 1000, 200, 5, "Unnamed Test", 42, true, 1, 20⟩

/-- `true` iff an `Except` value is `.ok`. -/
def exceptOk {ε α : Type} : Except ε α → Bool
  | .ok _ => true
  | .error _ => false

/-! ## `str2bool` (`T4148_train_loader.py` lines 42-50) -/

/-- The runtime values `str2bool` is applied to: `argparse` passes either a
`bool` (the default) or a command-line string. -/
inductive StrOrBool where
  | bool (b : Bool)
  | str (s : String)
deriving Repr, DecidableEq

/-- Python's `v.lower()`: per-character lowercasing.  (Defined via
`List.map` on the character data so that concrete instances evaluate;
the command-line strings of interest are ASCII.) -/
def strLower (s : String) : String := ⟨s.data.map Char.toLower⟩

/-- `T4148_train_loader.py` lines 42-50: a `bool` is returned unchanged; a
string lowercasing into the truthy set gives `True`, into the falsy set
`False`; anything else raises.  (In the source the raise is written
`argparse.ArgumentTypeError(...)` while only `from argparse import
ArgumentParser` was imported, so the escaping exception is actually a
`NameError`; either way no value is returned, which is all the embedding
records.) -/
def str2bool : StrOrBool → Except String Bool
  | .bool b => .ok b
  | .str v =>
    if strLower v ∈ ["yes", "true", "t", "y", "1"] then .ok true
    else if strLower v ∈ ["no", "false", "f", "n", "0"] then .ok false
    else .error "Boolean value expected."

/-! ## `symlink_force` (lines 26-34 / 31-39, identical in both variants)

The filesystem entry at `link_name` is modelled as `Option String` (`none`:
nothing there; `some t`: a link pointing at `t`).  `os.symlink` fails with
`EEXIST` exactly when an entry exists; `os.remove` fails (`ENOENT`, an
"other" error) when none does.  Since the real OS can also fail for
unrelated reasons (permissions, I/O), each primitive call additionally takes
an injected fault (`Option ℕ`: an errno different from `EEXIST`) so that the
"any other OS error propagates" branch is reachable in the model. -/

/-- `errno.EEXIST` (17 on Linux); an `OSError` is identified by its errno,
which is how the source inspects it (`e.errno == errno.EEXIST`). -/
def EEXIST : ℕ := 17

/-- `errno.ENOENT` (2 on Linux), raised by `os.remove` on a missing path. -/
def ENOENT : ℕ := 2

/-- `os.symlink(target, link_name)`: with no injected fault, fails with
`EEXIST` iff an entry already exists at `link_name`, else writes the link. -/
def os_symlink (fault : Option ℕ) (fs : Option String) (target : String) :
    Except ℕ (Option String) :=
  match fault with
  | some e => .error e
  | none =>
    match fs with
    | some _ => .error EEXIST
    | none => .ok (some target)

/-- `os.remove(link_name)`: with no injected fault, removes the entry, and
fails with `ENOENT` when there is nothing to remove. -/
def os_remove (fault : Option ℕ) (fs : Option String) :
    Except ℕ (Option String) :=
  match fault with
  | some e => .error e
  | none =>
    match fs with
    | some _ => .ok none
    | none => .error ENOENT

/-- `symlink_force(target, link_name)` (lines 26-34 of
`T4148_train_adamW.py`, identical at lines 31-39 of
`T4148_train_loader.py`): try `os.symlink`; on an `OSError` with
`errno == errno.EEXIST`, `os.remove` the entry and `os.symlink` again (each
of which may itself fail, propagating); on any other `OSError`, re-raise.
`f1, f2, f3` are the injected faults of the up to three primitive calls in
source order. -/
def symlink_force (f1 f2 f3 : Option ℕ) (fs : Option String)
    (target : String) : Except ℕ (Option String) :=
  match os_symlink f1 fs target with
  | .ok fs1 => .ok fs1
  | .error e =>
    if e = EEXIST then
      match os_remove f2 fs with
      | .ok fs2 => os_symlink f3 fs2 target
      | .error e2 => .error e2
    else
      .error e

/-! ## Variant B dataset setup (`T4148_train_loader.py` lines 100-109) -/

set_option linter.unusedVariables false in
/-- The dataset-construction phase of Variant B's `do_training`
(`T4148_train_loader.py` lines 100-109), before the epoch loop: construct
`SceneTextDataset(data_dir, split='train', ...)`, then unconditionally
`SceneTextDataset(data_dir, split='val', ...)` — `use_val` is not consulted.
`loadSplit` abstracts the external constructor: for a split name it either
yields an opaque dataset handle (`ℕ`) or raises.  Returned are the splits
actually passed to the constructor, in order, and the outcome. -/
def setupDatasetsB (use_val : Bool) (loadSplit : String → Except String ℕ) :
    List String × Except String (ℕ × ℕ) :=
  match loadSplit "train" with
  | .error e => (["train"], .error e)
  | .ok train =>
    match loadSplit "val" with
    | .error e => (["train", "val"], .error e)
    | .ok val => (["train", "val"], .ok (train, val))

/-! ## Step lemmas, Variant A -/

theorem updateBestA_cnt (s : StateA) (l : ℚ) :
    ((updateBestA s l).1).early_stop_cnt =
      if s.best_score > l then s.early_stop_cnt else s.early_stop_cnt + 1 := by
  by_cases h : s.best_score > l <;> simp [updateBestA, h]

theorem updateBestA_cnt_le (s : StateA) (l : ℚ) :
    s.early_stop_cnt ≤ ((updateBestA s l).1).early_stop_cnt := by
  rw [updateBestA_cnt]
  split <;> omega

theorem updateBestA_best_le (s : StateA) (l : ℚ) :
    ((updateBestA s l).1).best_score ≤ s.best_score := by
  by_cases h : s.best_score > l <;> simp [updateBestA, h]
  exact le_of_lt h

/-! ## Structural lemmas about `runA` -/

theorem runA_mem_rec (es : ℤ) (si : ℕ) (losses : ℕ → ℚ) :
    ∀ (fuel epoch : ℕ) (s : StateA), ∀ r ∈ runA es si losses epoch fuel s,
      r.loss = losses r.epoch
      ∧ r.after = (updateBestA r.before r.loss).1
      ∧ r.savedBest = (updateBestA r.before r.loss).2
      ∧ r.broke = breaksA es r.after
      ∧ r.savedPeriodic = (!r.broke && periodicEpoch si r.epoch) := by
  intro fuel
  induction fuel with
  | zero => intro epoch s r hr; simp [runA] at hr
  | succ f ih =>
    intro epoch s r hr
    simp only [runA] at hr
    by_cases hb : breaksA es (updateBestA s (losses epoch)).1 = true
    · rw [if_pos hb] at hr
      simp only [List.mem_singleton] at hr
      subst hr
      simp [hb]
    · rw [if_neg hb] at hr
      rcases List.mem_cons.mp hr with h | h
      · subst h
        simp only [Bool.not_eq_true] at hb
        simp [hb]
      · exact ih (epoch + 1) (updateBestA s (losses epoch)).1 r h

theorem runA_init_le (es : ℤ) (si : ℕ) (losses : ℕ → ℚ) :
    ∀ (fuel epoch : ℕ) (s : StateA), ∀ r ∈ runA es si losses epoch fuel s,
      s.early_stop_cnt ≤ r.after.early_stop_cnt
      ∧ r.after.best_score ≤ s.best_score := by
  intro fuel
  induction fuel with
  | zero => intro epoch s r hr; simp [runA] at hr
  | succ f ih =>
    intro epoch s r hr
    simp only [runA] at hr
    by_cases hb : breaksA es (updateBestA s (losses epoch)).1 = true
    · rw [if_pos hb] at hr
      simp only [List.mem_singleton] at hr
      subst hr
      exact ⟨updateBestA_cnt_le s (losses epoch), updateBestA_best_le s (losses epoch)⟩
    · rw [if_neg hb] at hr
      rcases List.mem_cons.mp hr with h | h
      · subst h
        exact ⟨updateBestA_cnt_le s (losses epoch), updateBestA_best_le s (losses epoch)⟩
      · obtain ⟨h1, h2⟩ := ih (epoch + 1) (updateBestA s (losses epoch)).1 r h
        exact ⟨le_trans (updateBestA_cnt_le s (losses epoch)) h1,
               le_trans h2 (updateBestA_best_le s (losses epoch))⟩

theorem runA_pairwise (es : ℤ) (si : ℕ) (losses : ℕ → ℚ) :
    ∀ (fuel epoch : ℕ) (s : StateA),
      List.Pairwise
        (fun a b => a.after.early_stop_cnt ≤ b.after.early_stop_cnt
          ∧ b.after.best_score ≤ a.after.best_score)
        (runA es si losses epoch fuel s) := by
  intro fuel
  induction fuel with
  | zero => intro epoch s; simp [runA]
  | succ f ih =>
    intro epoch s
    simp only [runA]
    by_cases hb : breaksA es (updateBestA s (losses epoch)).1 = true
    · rw [if_pos hb]
      simp
    · rw [if_neg hb]
      refine List.Pairwise.cons ?_ (ih (epoch + 1) (updateBestA s (losses epoch)).1)
      intro b hb'
      exact runA_init_le es si losses f (epoch + 1)
        (updateBestA s (losses epoch)).1 b hb'

/-! ## Step lemmas, Variant B -/

theorem updateBestB_cnt (s : StateB) (f : ℚ) :
    ((updateBestB s f).1).stop_cnt =
      if s.best_score < f then 0 else s.stop_cnt + 1 := by
  by_cases h : s.best_score < f <;> simp [updateBestB, h]

theorem updateBestB_best_le (s : StateB) (f : ℚ) :
    s.best_score ≤ ((updateBestB s f).1).best_score := by
  by_cases h : s.best_score < f <;> simp [updateBestB, h]
  exact le_of_lt h

theorem stepB_best_le (uv : Bool) (vi : ℕ) (f1s : ℕ → ℚ) (epoch : ℕ)
    (s : StateB) : s.best_score ≤ ((stepB uv vi f1s epoch s).1).best_score := by
  unfold stepB
  split
  · exact updateBestB_best_le s (f1s epoch)
  · exact le_refl _

theorem stepB_skip (uv : Bool) (vi : ℕ) (f1s : ℕ → ℚ) (epoch : ℕ)
    (s : StateB) (h : valEpoch uv vi epoch = false) :
    stepB uv vi f1s epoch s = (s, false) := by
  simp [stepB, h]

/-! ## Structural lemmas about `runB` -/

theorem runB_mem_rec (es : ℤ) (si : ℕ) (uv : Bool) (vi : ℕ) (f1s : ℕ → ℚ) :
    ∀ (fuel epoch : ℕ) (s : StateB),
      ∀ r ∈ runB es si uv vi f1s epoch fuel s,
        r.f1 = f1s r.epoch
        ∧ r.ranVal = valEpoch uv vi r.epoch
        ∧ (r.after, r.savedBest) = stepB uv vi f1s r.epoch r.before
        ∧ r.broke = breaksB es r.after
        ∧ r.savedPeriodic = periodicEpoch si r.epoch := by
  intro fuel
  induction fuel with
  | zero => intro epoch s r hr; simp [runB] at hr
  | succ f ih =>
    intro epoch s r hr
    simp only [runB] at hr
    by_cases hb : breaksB es (stepB uv vi f1s epoch s).1 = true
    · rw [if_pos hb] at hr
      simp only [List.mem_singleton] at hr
      subst hr
      simp [hb]
    · rw [if_neg hb] at hr
      rcases List.mem_cons.mp hr with h | h
      · subst h
        simp only [Bool.not_eq_true] at hb
        simp [hb]
      · exact ih (epoch + 1) (stepB uv vi f1s epoch s).1 r h

theorem runB_init_le (es : ℤ) (si : ℕ) (uv : Bool) (vi : ℕ) (f1s : ℕ → ℚ) :
    ∀ (fuel epoch : ℕ) (s : StateB),
      ∀ r ∈ runB es si uv vi f1s epoch fuel s,
        s.best_score ≤ r.after.best_score := by
  intro fuel
  induction fuel with
  | zero => intro epoch s r hr; simp [runB] at hr
  | succ f ih =>
    intro epoch s r hr
    simp only [runB] at hr
    by_cases hb : breaksB es (stepB uv vi f1s epoch s).1 = true
    · rw [if_pos hb] at hr
      simp only [List.mem_singleton] at hr
      subst hr
      exact stepB_best_le uv vi f1s epoch s
    · rw [if_neg hb] at hr
      rcases List.mem_cons.mp hr with h | h
      · subst h
        exact stepB_best_le uv vi f1s epoch s
      · exact le_trans (stepB_best_le uv vi f1s epoch s)
          (ih (epoch + 1) (stepB uv vi f1s epoch s).1 r h)

theorem runB_pairwise (es : ℤ) (si : ℕ) (uv : Bool) (vi : ℕ) (f1s : ℕ → ℚ) :
    ∀ (fuel epoch : ℕ) (s : StateB),
      List.Pairwise
        (fun a b => a.after.best_score ≤ b.after.best_score)
        (runB es si uv vi f1s epoch fuel s) := by
  intro fuel
  induction fuel with
  | zero => intro epoch s; simp [runB]
  | succ f ih =>
    intro epoch s
    simp only [runB]
    by_cases hb : breaksB es (stepB uv vi f1s epoch s).1 = true
    · rw [if_pos hb]
      simp
    · rw [if_neg hb]
      refine List.Pairwise.cons ?_ (ih (epoch + 1) (stepB uv vi f1s epoch s).1)
      intro b hb'
      exact runB_init_le es si uv vi f1s f (epoch + 1)
        (stepB uv vi f1s epoch s).1 b hb'

/-- The early-stop invariant of Variant B: as long as the run keeps going,
`stop_cnt` at the start of each executed epoch is at most `early_stop`
(line 202 would have ended the run at the previous epoch otherwise). -/
theorem runB_before_le (es : ℤ) (si : ℕ) (uv : Bool) (vi : ℕ) (f1s : ℕ → ℚ) :
    ∀ (fuel epoch : ℕ) (s : StateB), (s.stop_cnt : ℤ) ≤ es →
      ∀ r ∈ runB es si uv vi f1s epoch fuel s,
        (r.before.stop_cnt : ℤ) ≤ es := by
  intro fuel
  induction fuel with
  | zero => intro epoch s _ r hr; simp [runB] at hr
  | succ f ih =>
    intro epoch s hs r hr
    simp only [runB] at hr
    by_cases hb : breaksB es (stepB uv vi f1s epoch s).1 = true
    · rw [if_pos hb] at hr
      simp only [List.mem_singleton] at hr
      subst hr
      exact hs
    · rw [if_neg hb] at hr
      rcases List.mem_cons.mp hr with h | h
      · subst h
        exact hs
      · refine ih (epoch + 1) (stepB uv vi f1s epoch s).1 ?_ r h
        simp only [breaksB, Bool.not_eq_true, decide_eq_false_iff_not, not_lt] at hb
        exact hb

/-! ## Claims -/

/-- C1, counterexample to the claim as stated: with `use_val = True`,
`val_interval = 2` and the (argparse-accepted) patience `early_stop = -1`,
the Variant B run breaks out of the loop on epoch 0, although
`(0 + 1) % 2 ≠ 0`, i.e. on an epoch that is not a validation-interval epoch:
the `stop_cnt > early_stop` check of line 202 sits outside the validation
branch and runs on every epoch. -/
theorem claim_C1_counterexample :
    traceB (-1) 5 true 2 (fun _ => 0) 4 =
      [⟨0, 0, initB, initB, false, false, false, true⟩]
    ∧ ¬ ((0 + 1) % 2 = 0) := by decide

/-- C1 (amended): in Variant B (`T4148_train_loader.py`), provided the
configured patience `early_stop` is non-negative (as its default 20 is),
the training loop can break out early on an epoch `e` only when `use_val`
is true and `(e + 1) % val_interval == 0` — epochs between validation
intervals never trigger termination, since `stop_cnt` only moves inside the
validation branch. -/
theorem claim_C1 (es : ℤ) (si vi : ℕ) (uv : Bool) (f1s : ℕ → ℚ)
    (me : ℕ) (hes : 0 ≤ es) :
    ∀ r ∈ traceB es si uv vi f1s me, r.broke = true →
      uv = true ∧ (r.epoch + 1) % vi = 0 := by
  intro r hr hbroke
  obtain ⟨-, -, hstep, hbr, -⟩ := runB_mem_rec es si uv vi f1s me 0 initB r hr
  have hbefore : (r.before.stop_cnt : ℤ) ≤ es :=
    runB_before_le es si uv vi f1s me 0 initB (by simpa [initB] using hes) r hr
  rw [hbroke] at hbr
  have hafter : es < (r.after.stop_cnt : ℤ) := by
    have h := hbr.symm
    simpa [breaksB] using h
  by_cases hv : valEpoch uv vi r.epoch = true
  · simpa [valEpoch] using hv
  · exfalso
    have hv' : valEpoch uv vi r.epoch = false := by simpa using hv
    rw [stepB_skip uv vi f1s r.epoch r.before hv'] at hstep
    rw [Prod.ext_iff] at hstep
    rw [show r.after = r.before from hstep.1] at hafter
    omega

/-- C1 witness: a concrete Variant B run (`early_stop = 0`, `use_val = true`,
`val_interval = 1`, F1 scores 1 then 0) breaks on epoch 1, and the amended
theorem yields that epoch 1 is a validation-interval epoch. -/
theorem claim_C1_witness :
    (true : Bool) = true ∧ ((1 : ℕ) + 1) % 1 = 0 :=
  claim_C1 0 5 1 true (fun k => if k = 0 then 1 else 0) 2 (by decide)
    ⟨1, 0, ⟨1, 0⟩, ⟨1, 1⟩, true, false, false, true⟩ (by decide) (by decide)

/-- C2, counterexample to the claim as stated: in Variant A with
`save_interval = 2` and `early_stop = 0`, losses 1 then 2, epoch 1 satisfies
`(1 + 1) % 2 == 0` yet writes no periodic checkpoint: the early-stop `break`
of lines 132-134 precedes the periodic save of lines 137-146, so the epoch
that triggers early stopping skips its periodic checkpoint. -/
theorem claim_C2_counterexample :
    traceA 0 2 (fun k => if k = 0 then 1 else 2) 2 =
      [⟨0, 1, initA, ⟨1, 0⟩, true, false, false⟩,
       ⟨1, 2, ⟨1, 0⟩, ⟨1, 1⟩, false, false, true⟩]
    ∧ periodicEpoch 2 1 = true := by decide

set_option linter.unusedVariables false in
/-- C2 (amended): for positive `save_interval` (Python raises
`ZeroDivisionError` on 0), a periodic (timestamped) checkpoint is written
and the `latest.pth` symlink force-updated exactly on executed epochs with
`(epoch + 1) % save_interval == 0`, independent of whether the epoch
improved the best score — in Variant B including the epoch that triggers
early stopping, while in Variant A the epoch on which the early-stop
`break` fires skips its periodic checkpoint, because the `break` precedes
the save. -/
theorem claim_C2 (esA : ℤ) (siA : ℕ) (losses : ℕ → ℚ) (meA : ℕ)
    (esB : ℤ) (siB viB : ℕ) (uvB : Bool) (f1s : ℕ → ℚ) (meB : ℕ)
    (hsiA : 0 < siA) (hsiB : 0 < siB) :
    (∀ r ∈ traceA esA siA losses meA,
       r.savedPeriodic = true ↔ r.broke = false ∧ (r.epoch + 1) % siA = 0)
    ∧ (∀ r ∈ traceB esB siB uvB viB f1s meB,
       r.savedPeriodic = true ↔ (r.epoch + 1) % siB = 0) := by
  constructor
  · intro r hr
    obtain ⟨-, -, -, -, hsp⟩ := runA_mem_rec esA siA losses meA 0 initA r hr
    rw [hsp]
    cases hb : r.broke <;> simp [periodicEpoch]
  · intro r hr
    obtain ⟨-, -, -, -, hsp⟩ := runB_mem_rec esB siB uvB viB f1s meB 0 initB r hr
    rw [hsp]
    simp [periodicEpoch]

/-- C2 witness: on a concrete fault-free epoch of each variant
(`save_interval = 1`), the amended equivalence evaluates as expected. -/
theorem claim_C2_witness :
    ((true : Bool) = true ↔ (false : Bool) = false ∧ ((0 : ℕ) + 1) % 1 = 0)
    ∧ ((true : Bool) = true ↔ ((0 : ℕ) + 1) % 1 = 0) :=
  ⟨(claim_C2 201 1 (fun _ => 2) 1 20 1 1 true (fun _ => 0) 1
      (by decide) (by decide)).1
     ⟨0, 2, initA, ⟨2, 0⟩, true, true, false⟩ (by decide),
   (claim_C2 201 1 (fun _ => 2) 1 20 1 1 true (fun _ => 0) 1
      (by decide) (by decide)).2
     ⟨0, 0, initB, ⟨0, 1⟩, true, false, true, false⟩ (by decide)⟩

/-- C3: in Variant A (`T4148_train_adamW.py`), the stall counter
`early_stop_cnt` is never reset: on every epoch of a run it is incremented
by exactly 1 when the epoch does not improve on `best_score` and left
unchanged (not zeroed) when it does, and consequently it is monotonically
non-decreasing across the whole run. -/
theorem claim_C3 (es : ℤ) (si : ℕ) (losses : ℕ → ℚ) (me : ℕ) :
    (∀ r ∈ traceA es si losses me,
       r.after.early_stop_cnt =
         if r.before.best_score > r.loss then r.before.early_stop_cnt
         else r.before.early_stop_cnt + 1)
    ∧ List.Pairwise (fun a b => a.after.early_stop_cnt ≤ b.after.early_stop_cnt)
        (traceA es si losses me) := by
  constructor
  · intro r hr
    obtain ⟨-, hafter, -, -, -⟩ := runA_mem_rec es si losses me 0 initA r hr
    rw [hafter, updateBestA_cnt]
  · exact (runA_pairwise es si losses me 0 initA).imp (fun h => h.1)

/-- C3 witness: the end-to-end scenario of the spec (losses 2, 3, 4,
`save_interval = 1`, patience 201): epoch 2 does not improve, so its stall
counter is 1 + 1 = 2. -/
theorem claim_C3_witness :
    (2 : ℕ) = (if (2 : ℚ) > 4 then 1 else 1 + 1) :=
  (claim_C3 201 1 (fun k => if k = 0 then (2 : ℚ) else if k = 1 then 3 else 4) 3).1
    ⟨2, 4, ⟨2, 1⟩, ⟨2, 2⟩, false, true, false⟩ (by decide)

/-- C4: in Variant B (`T4148_train_loader.py`), on a validation epoch whose
F1 strictly exceeds `best_score` the state becomes `(f1, 0)` (stall counter
reset to 0) and the best checkpoint is saved; on every other validation
epoch `best_score` is kept and `stop_cnt` incremented by exactly 1; on
non-validation epochs the state is untouched — hence `best_score` is
non-decreasing across the run. -/
theorem claim_C4 (es : ℤ) (si : ℕ) (uv : Bool) (vi : ℕ) (f1s : ℕ → ℚ)
    (me : ℕ) :
    (∀ r ∈ traceB es si uv vi f1s me,
       (r.ranVal = true →
          (r.before.best_score < r.f1 →
             r.after = ⟨r.f1, 0⟩ ∧ r.savedBest = true)
          ∧ (¬ r.before.best_score < r.f1 →
             r.after = ⟨r.before.best_score, r.before.stop_cnt + 1⟩
             ∧ r.savedBest = false))
       ∧ (r.ranVal = false → r.after = r.before ∧ r.savedBest = false))
    ∧ List.Pairwise (fun a b => a.after.best_score ≤ b.after.best_score)
        (traceB es si uv vi f1s me) := by
  constructor
  · intro r hr
    obtain ⟨hf1, hrv, hstep, -, -⟩ := runB_mem_rec es si uv vi f1s me 0 initB r hr
    constructor
    · intro hv
      have hveq : valEpoch uv vi r.epoch = true := by rw [← hrv, hv]
      simp only [stepB] at hstep
      rw [if_pos hveq, ← hf1] at hstep
      constructor
      · intro himp
        simp only [updateBestB] at hstep
        rw [if_pos himp] at hstep
        injection hstep with h1 h2
        exact ⟨h1, h2⟩
      · intro himp
        simp only [updateBestB] at hstep
        rw [if_neg himp] at hstep
        injection hstep with h1 h2
        exact ⟨h1, h2⟩
    · intro hv
      have hveq : valEpoch uv vi r.epoch = false := by rw [← hrv, hv]
      rw [stepB_skip uv vi f1s r.epoch r.before hveq] at hstep
      injection hstep with h1 h2
      exact ⟨h1, h2⟩
  · exact runB_pairwise es si uv vi f1s me 0 initB

/-- C4 witness: a concrete Variant B run (F1 scores 1 then 0): the
validation epoch 1 does not improve on `best_score = 1`, so the state
becomes `(1, 0 + 1)` with no best checkpoint saved. -/
theorem claim_C4_witness :
    (⟨1, 1⟩ : StateB) = ⟨1, 0 + 1⟩ ∧ (false : Bool) = false :=
  (((claim_C4 20 5 true 1 (fun k => if k = 0 then 1 else 0) 2).1
      ⟨1, 0, ⟨1, 0⟩, ⟨1, 1⟩, true, false, false, false⟩ (by decide)).1
    rfl).2 (by decide)

/-- C5: in Variant A (`T4148_train_adamW.py`), `best_score` is updated
(to the epoch loss, with the fixed-name `best_model.pth` checkpoint saved)
exactly when the epoch's accumulated loss is strictly lower than the stored
`best_score`, is otherwise kept with no best save, and is therefore
non-increasing across the whole run. -/
theorem claim_C5 (es : ℤ) (si : ℕ) (losses : ℕ → ℚ) (me : ℕ) :
    (∀ r ∈ traceA es si losses me,
       (r.before.best_score > r.loss →
          r.after.best_score = r.loss ∧ r.savedBest = true)
       ∧ (¬ r.before.best_score > r.loss →
          r.after.best_score = r.before.best_score ∧ r.savedBest = false)
       ∧ r.after.best_score ≤ r.before.best_score)
    ∧ List.Pairwise (fun a b => b.after.best_score ≤ a.after.best_score)
        (traceA es si losses me) := by
  constructor
  · intro r hr
    obtain ⟨-, hafter, hsb, -, -⟩ := runA_mem_rec es si losses me 0 initA r hr
    refine ⟨?_, ?_, ?_⟩
    · intro h
      rw [hafter, hsb]
      simp [updateBestA, h]
    · intro h
      rw [hafter, hsb]
      simp [updateBestA, h]
    · rw [hafter]
      exact updateBestA_best_le r.before r.loss
  · exact (runA_pairwise es si losses me 0 initA).imp (fun h => h.2)

/-- C5 witness: in the end-to-end scenario (losses 2, 3, 4), epoch 0
improves on the initial `best_score = 9999`, so `best_score` becomes the
loss 2 and `best_model.pth` is saved. -/
theorem claim_C5_witness :
    (2 : ℚ) = 2 ∧ (true : Bool) = true :=
  ((claim_C5 201 1 (fun k => if k = 0 then (2 : ℚ) else if k = 1 then 3 else 4) 3).1
      ⟨0, 2, initA, ⟨2, 0⟩, true, true, false⟩ (by decide)).1 (by decide)

/-- C6: configuration parsing fails with the validation error exactly when
`input_size % 32 != 0`, in both variants, and succeeds (Variant A returning
the parsed arguments unchanged) for every `input_size` that is a multiple
of 32, whatever the remaining arguments are. -/
theorem claim_C6 (a : ArgsA) (b : ArgsB) (vje : Bool) :
    (exceptOk (parse_argsA a) = true ↔ a.input_size % 32 = 0)
    ∧ (exceptOk (parse_argsB b vje) = true ↔ b.input_size % 32 = 0)
    ∧ (a.input_size % 32 = 0 → parse_argsA a = .ok a) := by
  refine ⟨?_, ?_, ?_⟩
  · unfold parse_argsA
    split_ifs with h1 <;> simp [exceptOk] <;> omega
  · unfold parse_argsB
    split_ifs with h1 h2 <;> simp [exceptOk] <;> omega
  · intro h
    simp [parse_argsA, h]

/-- C6 witness: the default configuration (`input_size = 512`) parses
successfully in Variant A. -/
theorem claim_C6_witness :
    exceptOk (parse_argsA defaultArgsA) = true ↔ (512 : ℤ) % 32 = 0 :=
  (claim_C6 defaultArgsA defaultArgsB true).1

/-- C7: in Variant B's `parse_args`, once `input_size` passes validation:
if `use_val` is requested `True` but `data_dir/ufo/val.json` is absent, the
effective flag is forced to `False` with a warning emitted instead of
failing; if the file exists, the requested `use_val` value is preserved
unchanged (and no warning is emitted). -/
theorem claim_C7 (b : ArgsB) (vje : Bool) (h : b.input_size % 32 = 0) :
    (b.use_val = true → vje = false →
       parse_argsB b vje = .ok ({ b with use_val := false }, true))
    ∧ (vje = true → parse_argsB b vje = .ok (b, false)) := by
  constructor
  · intro huv hvje
    unfold parse_argsB
    rw [if_neg (by simp [h]), if_pos ⟨huv, hvje⟩]
  · intro hvje
    unfold parse_argsB
    rw [if_neg (by simp [h]), if_neg (by simp [hvje])]

/-- C7 witness: the default Variant B configuration (`use_val = True`)
with `val.json` absent is downgraded to `use_val = False` plus a warning. -/
theorem claim_C7_witness :
    parse_argsB defaultArgsB false =
      .ok ({ defaultArgsB with use_val := false }, true) :=
  (claim_C7 defaultArgsB false (by decide)).1 rfl rfl

/-- C8: `symlink_force` creates the link directly when nothing exists at
`link_name`; when creation fails with `EEXIST` it removes the existing
entry and retries the creation exactly once (a failure of the removal or of
the single retry propagates, with no second retry); any other OS error
propagates unchanged; and two fault-free calls in a row succeed and leave
the link pointing at the second target. -/
theorem claim_C8 (fs : Option String) (s t t2 : String) (n : ℕ)
    (hn : n ≠ EEXIST) :
    (symlink_force none none none none t = .ok (some t))
    ∧ (symlink_force none none none (some s) t = .ok (some t))
    ∧ (symlink_force (some n) none none fs t = .error n)
    ∧ (symlink_force none (some n) none (some s) t = .error n)
    ∧ (symlink_force none none (some n) (some s) t = .error n)
    ∧ (symlink_force none none none fs t = .ok (some t)
       ∧ symlink_force none none none (some t) t2 = .ok (some t2)) := by
  refine ⟨rfl, rfl, ?_, rfl, rfl, ?_, rfl⟩
  · simp [symlink_force, os_symlink, hn]
  · cases fs <;> rfl

/-- C8 witness: replacing an existing link succeeds and points it at the
new target. -/
theorem claim_C8_witness :
    symlink_force none none none (some "old.pth") "new.pth" =
      .ok (some "new.pth") :=
  (claim_C8 none "old.pth" "new.pth" "x" 13 (by decide)).2.1

/-- C9: Variant B's `do_training` constructs the validation-split dataset
unconditionally, before the epoch loop: the setup phase does not depend on
`use_val` at all, it invokes the constructor on `"val"` whenever the
`"train"` construction succeeded, and it fails whenever the `"val"`
construction fails — also in a run with `use_val = False`. -/
theorem claim_C9 (uv : Bool) (loadSplit : String → Except String ℕ) :
    setupDatasetsB true loadSplit = setupDatasetsB false loadSplit
    ∧ (∀ n, loadSplit "train" = .ok n → "val" ∈ (setupDatasetsB uv loadSplit).1)
    ∧ (∀ n e, loadSplit "train" = .ok n → loadSplit "val" = .error e →
        (setupDatasetsB uv loadSplit).2 = .error e) := by
  refine ⟨rfl, ?_, ?_⟩
  · intro n hn
    simp only [setupDatasetsB, hn]
    cases h : loadSplit "val" <;> simp [h]
  · intro n e hn he
    simp [setupDatasetsB, hn, he]

/-- C9 witness: with `use_val = False` and a loader whose `"val"` split
raises, the setup phase of Variant B fails with that error. -/
theorem claim_C9_witness :
    (setupDatasetsB false
        (fun split => if split = "train" then .ok 0 else .error "no val")).2
      = .error "no val" :=
  (claim_C9 false
      (fun split => if split = "train" then .ok 0 else .error "no val")).2.2
    0 "no val" rfl rfl

/-- The truthy and falsy string sets of `str2bool` are disjoint. -/
theorem falsy_not_truthy (t : String)
    (h : t ∈ ["no", "false", "f", "n", "0"]) :
    t ∉ ["yes", "true", "t", "y", "1"] := by
  fin_cases h <;> decide

/-- C10: `str2bool` returns a `bool` input unchanged; a string whose
lowercased form is in the truthy set yields `True` and one in the falsy set
yields `False`; on every other string it does not return a value but
raises. -/
theorem claim_C10 (b : Bool) (v : String) :
    str2bool (.bool b) = .ok b
    ∧ (strLower v ∈ ["yes", "true", "t", "y", "1"] →
       str2bool (.str v) = .ok true)
    ∧ (strLower v ∈ ["no", "false", "f", "n", "0"] →
       str2bool (.str v) = .ok false)
    ∧ (strLower v ∉ ["yes", "true", "t", "y", "1"] →
       strLower v ∉ ["no", "false", "f", "n", "0"] →
       str2bool (.str v) = .error "Boolean value expected.") := by
  refine ⟨rfl, ?_, ?_, ?_⟩
  · intro h
    simp only [str2bool]
    rw [if_pos h]
  · intro h
    simp only [str2bool]
    rw [if_neg (falsy_not_truthy _ h), if_pos h]
  · intro h1 h2
    simp only [str2bool]
    rw [if_neg h1, if_neg h2]

/-- C10 witness: `"Yes"`, `"NO"` and `"maybe"` behave as claimed
(case-insensitively). -/
theorem claim_C10_witness :
    str2bool (.str "Yes") = .ok true
    ∧ str2bool (.str "NO") = .ok false
    ∧ str2bool (.str "maybe") = .error "Boolean value expected." :=
  ⟨(claim_C10 true "Yes").2.1 (by decide),
   (claim_C10 true "NO").2.2.1 (by decide),
   (claim_C10 true "maybe").2.2.2 (by decide) (by decide)⟩

end EastTrain
